import Mathlib

/-!
Shallow embedding of the windowed event list (src/tui/event_list.rs) and the
process state store (src/state.rs) of tracexec.

Modelling conventions:
- Rust `usize` is modelled as `Nat`.  `saturating_sub` is `Nat` subtraction
  (which truncates at zero, exactly the saturating behaviour); an unguarded
  Rust `-` on `usize`, which panics on underflow in a debug build, is modelled
  by the checked subtraction `sub?` returning `none` on underflow.  Operations
  that contain such an unguarded subtraction return `Option`; `none` models
  the panic.
- A `TracerEvent` item matters to the windowing algorithm only through the
  total width of its rendered line (`evt.to_tui_line(..).width()`), so `items`
  is modelled as the list of those widths.
- The `baseline` field (styling information) is omitted: it only feeds the
  external line renderer.
- `ratatui::ListState` is modelled by its two observable fields `offset` and
  `selected`; `select` follows ratatui's semantics (selecting `none` resets
  the offset to 0, which is why `unselect` in the source saves and restores
  the offset around the call).
-/

namespace Tracexec

/-- Model of `ratatui::widgets::ListState`: the scroll offset and the selected
index. -/
structure ListState where
  offset : Nat
  selected : Option Nat
deriving DecidableEq

/-- `ListState::select`: sets the selection; selecting `None` resets the
offset to 0 (ratatui semantics). -/
def ListState.select (s : ListState) (idx : Option Nat) : ListState :=
  match idx with
  | some _ => { s with selected := idx }
  | none => { selected := none, offset := 0 }

/-- Checked `usize` subtraction: `none` models the underflow panic of an
unguarded Rust `-` in a debug build. -/
def sub? (a b : Nat) : Option Nat :=
  if b ≤ a then some (a - b) else none

/-- The `EventList` struct of src/tui/event_list.rs.  `items` holds the
rendered width of each event's line; `window` is the half-open range
`[window.1, window.2)` (Rust `(window.0, window.1)`). -/
structure EventList where
  state : ListState
  items : List Nat
  window : Nat × Nat
  nr_items_in_window : Nat
  last_selected : Option Nat
  horizontal_offset : Nat
  inner_width : Nat
  max_width : Nat
  max_window_len : Nat
  follow : Bool
deriving DecidableEq

namespace EventList

/-- `EventList::new(baseline, follow)` (the `baseline` argument is styling
data, omitted from the model). -/
def new (follow : Bool) : EventList :=
  { state := { offset := 0, selected := none }
    items := []
    last_selected := none
    window := (0, 0)
    nr_items_in_window := 0
    horizontal_offset := 0
    inner_width := 0
    max_width := 0
    max_window_len := 0
    follow := follow }

/-- `next_window`: slide the window down by one item if its end has not
reached the end of `items`.  The `bool` the source returns is discarded by
every caller in the source, so the model returns only the state. -/
def next_window (s : EventList) : EventList :=
  if s.window.2 < s.items.length then
    { s with window := (s.window.1 + 1, s.window.2 + 1) }
  else s

/-- `previous_window`: slide the window up by one if its start is positive.
`window.1 -= 1` in the source is an unguarded subtraction, hence `sub?`. -/
def previous_window (s : EventList) : Option EventList :=
  if 0 < s.window.1 then
    (sub? s.window.2 1).bind fun w2 =>
      some { s with window := (s.window.1 - 1, w2) }
  else some s

/-- `next`: move the selection down.  The source computes
`self.window.1 - self.window.0 - 1` and `self.nr_items_in_window - 1` with
unguarded subtractions, modelled by `sub?`. -/
def next (s : EventList) : Option EventList :=
  match s.state.selected with
  | none =>
    some { s with state := s.state.select (some (s.last_selected.getD 0)) }
  | some i =>
    (sub? s.window.2 s.window.1).bind fun d =>
    (sub? d 1).bind fun threshold =>
    let step := if threshold ≤ i then (i, s.next_window) else (i + 1, s)
    (sub? step.2.nr_items_in_window 1).bind fun nrm1 =>
    some { step.2 with state := step.2.state.select (some (min step.1 nrm1)) }

/-- `previous`: move the selection up.  `i - 1` is guarded by `i == 0`, but
`previous_window` contains an unguarded subtraction. -/
def previous (s : EventList) : Option EventList :=
  match s.state.selected with
  | none =>
    some { s with state := s.state.select (some (s.last_selected.getD 0)) }
  | some i =>
    if i = 0 then
      s.previous_window.bind fun s1 =>
        some { s1 with state := s1.state.select (some i) }
    else
      some { s with state := s.state.select (some (i - 1)) }

/-- `unselect`: remember the selection, clear it, and restore the scroll
offset that `select(None)` reset. -/
def unselect (s : EventList) : EventList :=
  let offset := s.state.offset
  let s1 : EventList :=
    { s with last_selected := s.state.selected, state := s.state.select none }
  { s1 with state := { s1.state with offset := offset } }

/-- `page_down`: slide the window down a full page, else pin it to the last
`max_window_len` items (`saturating_sub` is `Nat` subtraction). -/
def page_down (s : EventList) : EventList :=
  if s.window.2 + s.max_window_len ≤ s.items.length then
    { s with
      window := (s.window.1 + s.max_window_len, s.window.2 + s.max_window_len) }
  else
    let w0 := s.items.length - s.max_window_len
    { s with window := (w0, w0 + s.max_window_len) }

/-- `page_up`: slide the window up a full page, else pin it to the first
items.  `window.1 -= max_window_len` in the hot branch is unguarded. -/
def page_up (s : EventList) : Option EventList :=
  if s.max_window_len ≤ s.window.1 then
    (sub? s.window.2 s.max_window_len).bind fun w2 =>
      some { s with window := (s.window.1 - s.max_window_len, w2) }
  else
    some { s with window := (0, 0 + s.max_window_len) }

/-- `page_left`: saturating move of the horizontal offset left by a page. -/
def page_left (s : EventList) : EventList :=
  { s with horizontal_offset := s.horizontal_offset - s.inner_width }

/-- `page_right`: move right by a page, clamped to
`max_width.saturating_sub(inner_width)`. -/
def page_right (s : EventList) : EventList :=
  { s with
    horizontal_offset :=
      min (s.horizontal_offset + s.inner_width) (s.max_width - s.inner_width) }

/-- `scroll_left`: saturating move left by one column. -/
def scroll_left (s : EventList) : EventList :=
  { s with horizontal_offset := s.horizontal_offset - 1 }

/-- `scroll_right`: move right by one column, clamped to
`max_width.saturating_sub(inner_width)`. -/
def scroll_right (s : EventList) : EventList :=
  { s with
    horizontal_offset :=
      min (s.horizontal_offset + 1) (s.max_width - s.inner_width) }

/-- `scroll_to_top`: window becomes `[0, max_window_len)`. -/
def scroll_to_top (s : EventList) : EventList :=
  { s with window := (0, s.max_window_len) }

/-- `scroll_to_bottom`: window start becomes
`items.len().saturating_sub(max_window_len)`, end is start plus
`max_window_len`. -/
def scroll_to_bottom (s : EventList) : EventList :=
  let w0 := s.items.length - s.max_window_len
  { s with window := (w0, w0 + s.max_window_len) }

/-- `scroll_to_start`: horizontal offset back to column 0. -/
def scroll_to_start (s : EventList) : EventList :=
  { s with horizontal_offset := 0 }

/-- `scroll_to_end`: horizontal offset to
`max_width.saturating_sub(inner_width)`. -/
def scroll_to_end (s : EventList) : EventList :=
  { s with horizontal_offset := s.max_width - s.inner_width }

/-- `EventList::window(items, window)`, i.e.
`&items[window.0..window.1.min(items.len())]`.  `none` models the slice
bounds panic when the start exceeds the (clamped) end. -/
def windowSlice (items : List Nat) (w : Nat × Nat) : Option (List Nat) :=
  let e := min w.2 items.length
  if w.1 ≤ e then some ((items.take e).drop w.1) else none

/-- The `render` pass of `impl Widget for &mut EventList`, restricted to the
fields of `EventList` it mutates: `inner_width := area.width - 1` (a `u16`
subtraction, so `none` when the area width is 0), `nr_items_in_window` is set
to the length of the current window slice, and `max_width` is set to the
running maximum — seeded with `area.width`, not with the previous
`max_width` — of the rendered widths of the lines in the window.  The final
delegation to ratatui's `List` widget (styling, buffer drawing) is an
external collaborator and is not modelled. -/
def render (areaWidth : Nat) (s : EventList) : Option EventList :=
  if areaWidth = 0 then none
  else
    (windowSlice s.items s.window).bind fun visible =>
      some { s with
        inner_width := areaWidth - 1
        nr_items_in_window := visible.length
        max_width := visible.foldl (fun m w => max m w) areaWidth }

end EventList

/-- The closed set of vertical navigation operations of the claims. -/
inductive VOp where
  | next
  | previous
  | page_up
  | page_down
  | scroll_to_top
  | scroll_to_bottom
deriving DecidableEq

/-- Apply one vertical navigation operation; `none` models a panic. -/
def VOp.apply : VOp → EventList → Option EventList
  | .next, s => s.next
  | .previous, s => s.previous
  | .page_up, s => s.page_up
  | .page_down, s => some s.page_down
  | .scroll_to_top, s => some s.scroll_to_top
  | .scroll_to_bottom, s => some s.scroll_to_bottom

/-- Apply a sequence of vertical navigation operations left to right; a
panic anywhere aborts the sequence. -/
def applyVOps : List VOp → EventList → Option EventList
  | [], s => some s
  | op :: ops, s => (op.apply s).bind (applyVOps ops)

/-- The closed set of horizontal navigation operations of the claims. -/
inductive HOp where
  | scroll_left
  | scroll_right
  | page_left
  | page_right
  | scroll_to_start
  | scroll_to_end
deriving DecidableEq

/-- Apply one horizontal navigation operation (none of them can panic). -/
def HOp.apply : HOp → EventList → EventList
  | .scroll_left, s => s.scroll_left
  | .scroll_right, s => s.scroll_right
  | .page_left, s => s.page_left
  | .page_right, s => s.page_right
  | .scroll_to_start, s => s.scroll_to_start
  | .scroll_to_end, s => s.scroll_to_end

/-- Apply a sequence of horizontal navigation operations left to right. -/
def applyHOps : List HOp → EventList → EventList
  | [], s => s
  | op :: ops, s => applyHOps ops (op.apply s)

/-! The process state store of src/state.rs. -/

/-- `ExecData`: filename, argv, envp captured at exec (CString modelled as
String). -/
structure ExecData where
  filename : String
  argv : List String
  envp : List String
deriving DecidableEq

/-- `ProcessStatus`. -/
inductive ProcessStatus where
  | Running
  | Exited (code : Int)
deriving DecidableEq

/-- `ProcessState`: one generation of one process (Pid modelled as Nat). -/
structure ProcessState where
  pid : Nat
  status : ProcessStatus
  start_time : Nat
  argv : List String
  comm : String
  preexecve : Bool
  exec_data : Option ExecData
deriving DecidableEq

/-- `ProcessStateStore`: the `HashMap<Pid, Vec<ProcessState>>` is modelled as
a total function from pid to the list of generations, the empty list standing
for an absent key (observably equivalent: the map is only read through
`get_current_mut`, and `last_mut` of an entry behaves on an absent key like
on an empty vector). -/
structure ProcessStateStore where
  processes : Nat → List ProcessState

namespace ProcessStateStore

/-- `ProcessStateStore::new`. -/
def new : ProcessStateStore := ⟨fun _ => []⟩

/-- `insert`: push the state onto the vector for `state.pid`, creating it if
absent. -/
def insert (st : ProcessStateStore) (s : ProcessState) : ProcessStateStore :=
  ⟨fun p => if p = s.pid then st.processes s.pid ++ [s] else st.processes p⟩

/-- `get_current_mut`: the last generation recorded for `pid`, if any.  The
model returns the value; mutability is irrelevant to the claims. -/
def get_current (st : ProcessStateStore) (pid : Nat) : Option ProcessState :=
  (st.processes pid).getLast?

end ProcessStateStore

/-- Vertical windowing invariant of the spec: the window is an ordered
half-open range that ends within the items and is no longer than
`max_window_len`. -/
def VInv (s : EventList) : Prop :=
  s.window.1 ≤ s.window.2 ∧ s.window.2 ≤ s.items.length ∧
  s.window.2 - s.window.1 ≤ s.max_window_len

instance (s : EventList) : Decidable (VInv s) := by
  unfold VInv; infer_instance

/-- The upper bound of the horizontal offset:
`max_width.saturating_sub(inner_width)`, i.e. `max(0, max_width −
inner_width)`. -/
def hbound (s : EventList) : Nat := s.max_width - s.inner_width

/-- `ProcessState::new(pid, start_time)`.  Modelled from the spec: `read_comm`
and `read_argv` live in src/proc.rs, which is not part of the shown sources;
per the spec they are two external reads (current command name, current
argument vector) that fail when the process has already vanished.  They are
passed in as abstract fallible readers; the error type is abstracted to
`String`. -/
def ProcessState.new (read_comm : Nat → Except String String)
    (read_argv : Nat → Except String (List String))
    (pid : Nat) (start_time : Nat) : Except String ProcessState :=
  match read_comm pid with
  | Except.error e => Except.error e
  | Except.ok comm =>
    match read_argv pid with
    | Except.error e => Except.error e
    | Except.ok argv =>
      Except.ok { pid := pid
                  status := ProcessStatus.Running
                  comm := comm
                  argv := argv
                  start_time := start_time
                  preexecve := true
                  exec_data := none }

/-! Concrete states used by witnesses and counterexamples. -/

/-- An empty event list whose viewport can show 10 rows. -/
def elEmpty10 : EventList := { (EventList.new false) with max_window_len := 10 }

/-- A 95-item list, window pinned to the last 10 items. -/
def el95 : EventList :=
  { (EventList.new false) with
    items := List.replicate 95 0
    window := (85, 95)
    max_window_len := 10 }

/-- Two narrow lines in the window after a session that once rendered a
100-column line. -/
def elWide : EventList :=
  { (EventList.new false) with
    items := [3, 3]
    window := (0, 2)
    max_window_len := 2
    max_width := 100 }

/-- A 20-item list whose window is still the initial empty range. -/
def el20 : EventList :=
  { (EventList.new false) with
    items := List.replicate 20 0
    window := (0, 0)
    max_window_len := 10 }

/-- A three-item list, a two-row window in sync with its rendered slice, the
middle of the window selected. -/
def elSel : EventList :=
  { (EventList.new false) with
    items := [5, 6, 7]
    window := (0, 2)
    nr_items_in_window := 2
    max_window_len := 2
    state := { offset := 0, selected := some 1 } }

/-- The initial event list with a selection but a window holding zero
items. -/
def elBug : EventList :=
  { (EventList.new false) with state := { offset := 0, selected := some 0 } }

/-- A state with some horizontal scrolling room: lines up to 5 columns wide,
a 2-column viewport. -/
def elHoriz : EventList :=
  { (EventList.new false) with max_width := 5, inner_width := 2 }

/-- First observed generation of pid 42. -/
def psA : ProcessState :=
  { pid := 42, status := ProcessStatus.Running, start_time := 1,
    argv := ["a"], comm := "a", preexecve := true, exec_data := none }

/-- Second observed generation of pid 42, after pid reuse. -/
def psB : ProcessState :=
  { pid := 42, status := ProcessStatus.Running, start_time := 7,
    argv := ["b"], comm := "b", preexecve := true, exec_data := none }

/-! Theorems. -/

/-- C2 (code bug evidence): `next` on an event list with a selection and a
window holding zero items panics: the source computes
`self.window.1 - self.window.0 - 1 = 0 - 0 - 1`, a usize underflow, instead
of clamping. -/
theorem next_empty_window_underflows : elBug.next = none := by decide

/-- C5: `page_down` slides the window down by `max_window_len` when
`window.1 + max_window_len ≤ items.len()`, and otherwise clamps the window
to the last `max_window_len` items. -/
theorem page_down_correct (s : EventList) :
    (s.window.2 + s.max_window_len ≤ s.items.length →
      s.page_down = { s with window :=
        (s.window.1 + s.max_window_len, s.window.2 + s.max_window_len) }) ∧
    (s.items.length < s.window.2 + s.max_window_len →
      s.max_window_len ≤ s.items.length →
      s.page_down = { s with window :=
        (s.items.length - s.max_window_len, s.items.length) }) := by
  constructor
  · intro h
    unfold EventList.page_down
    rw [if_pos h]
  · intro h1 h2
    unfold EventList.page_down
    rw [if_neg (by omega)]
    show ({ s with window := (s.items.length - s.max_window_len,
      s.items.length - s.max_window_len + s.max_window_len) } : EventList) = _
    rw [Nat.sub_add_cancel h2]

/-- C5 witness: in a 95-item list with `max_window_len = 10` and the window
at `(85, 95)`, `page_down` clamps to `(85, 95)` — not `(95, 105)`. -/
theorem page_down_correct_witness :
    el95.page_down = { el95 with window := (85, 95) } := by
  have h := (page_down_correct el95).2 (by decide) (by decide)
  exact h

/-- C7: inserting two process states with the same pid makes
`get_current_mut` return the second while the first remains in that pid's
sequence; nothing is removed or overwritten. -/
theorem pid_reuse_get_current (st : ProcessStateStore) (s1 s2 : ProcessState)
    (p : Nat) (h1 : s1.pid = p) (h2 : s2.pid = p)
    (ht : s1.start_time < s2.start_time) :
    ((st.insert s1).insert s2).get_current p = some s2 ∧
    ((st.insert s1).insert s2).processes p = st.processes p ++ [s1, s2] := by
  have hp : ((st.insert s1).insert s2).processes p =
      st.processes p ++ [s1, s2] := by
    unfold ProcessStateStore.insert
    simp [h1, h2]
  refine ⟨?_, hp⟩
  unfold ProcessStateStore.get_current
  rw [hp, show st.processes p ++ [s1, s2] =
    (st.processes p ++ [s1]) ++ [s2] by simp, List.getLast?_concat]

/-- C7 witness: two generations of pid 42 with start times 1 < 7. -/
theorem pid_reuse_get_current_witness :
    ((ProcessStateStore.new.insert psA).insert psB).get_current 42 = some psB ∧
    ((ProcessStateStore.new.insert psA).insert psB).processes 42 =
      [psA, psB] := by
  have h := pid_reuse_get_current ProcessStateStore.new psA psB 42
    (by decide) (by decide) (by decide)
  exact h

/-- C8: after `unselect`, `next` (or `previous`) restores the selection to
exactly the remembered row, and to row 0 when no row was ever remembered. -/
theorem unselect_then_move_restores (s : EventList) (r : Nat)
    (h : s.state.selected = some r) :
    s.unselect.next = some { s.unselect with
      state := s.unselect.state.select (some r) } ∧
    s.unselect.previous = some { s.unselect with
      state := s.unselect.state.select (some r) } ∧
    (∀ t : EventList, t.state.selected = none → t.last_selected = none →
      t.next = some { t with state := t.state.select (some 0) } ∧
      t.previous = some { t with state := t.state.select (some 0) }) := by
  refine ⟨?_, ?_, ?_⟩
  · unfold EventList.next EventList.unselect
    simp [ListState.select, h]
  · unfold EventList.previous EventList.unselect
    simp [ListState.select, h]
  · intro t ht1 ht2
    constructor
    · unfold EventList.next
      simp [ListState.select, ht1, ht2]
    · unfold EventList.previous
      simp [ListState.select, ht1, ht2]

/-- C8 witness: a selection at row 1; unselect then move restores row 1, and
a never-selected fresh list restores row 0. -/
theorem unselect_then_move_restores_witness :
    elSel.unselect.next = some { elSel.unselect with
      state := elSel.unselect.state.select (some 1) } ∧
    (EventList.new false).next = some { (EventList.new false) with
      state := (EventList.new false).state.select (some 0) } := by
  have h := unselect_then_move_restores elSel 1 (by decide)
  exact ⟨h.1, (h.2.2 (EventList.new false) (by decide) (by decide)).1⟩

/-- C9: `ProcessState::new` fails exactly when reading the process's command
name or argument vector fails; on success the state has the given pid and
start time, status `Running`, `preexecve` true and no exec data. -/
theorem process_state_new_correct
    (read_comm : Nat → Except String String)
    (read_argv : Nat → Except String (List String)) (pid t : Nat) :
    ((∃ e, ProcessState.new read_comm read_argv pid t = Except.error e) ↔
      (∃ e, read_comm pid = Except.error e) ∨
      (∃ e, read_argv pid = Except.error e)) ∧
    (∀ c a, read_comm pid = Except.ok c → read_argv pid = Except.ok a →
      ProcessState.new read_comm read_argv pid t = Except.ok
        { pid := pid, status := ProcessStatus.Running, start_time := t,
          argv := a, comm := c, preexecve := true, exec_data := none }) := by
  constructor
  · cases hrc : read_comm pid with
    | error e => simp [ProcessState.new, hrc, Except.bind]
    | ok c =>
      cases hra : read_argv pid with
      | error e => simp [ProcessState.new, hrc, hra, Except.bind]
      | ok a => simp [ProcessState.new, hrc, hra, Except.bind]
  · intro c a hrc hra
    simp [ProcessState.new, hrc, hra, Except.bind]

/-- C9 witness: readers that succeed yield the fully populated fresh state;
the error case of the equivalence at a reader that fails. -/
theorem process_state_new_correct_witness :
    ProcessState.new (fun _ => Except.ok "bash")
      (fun _ => Except.ok ["bash"]) 3 7 = Except.ok
      { pid := 3, status := ProcessStatus.Running, start_time := 7,
        argv := ["bash"], comm := "bash", preexecve := true,
        exec_data := none } := by
  have h := (process_state_new_correct (fun _ => Except.ok "bash")
    (fun _ => Except.ok ["bash"]) 3 7).2 "bash" ["bash"] rfl rfl
  exact h

/-! Helper lemmas for the windowing invariants. -/

/-- Characterization of checked subtraction succeeding. -/
theorem sub?_eq_some {a b c : Nat} : sub? a b = some c ↔ b ≤ a ∧ a - b = c := by
  unfold sub?
  split
  · simp_all
  · simp_all

/-- Reduction of `next` when nothing is selected. -/
theorem next_none (s : EventList) (hsel : s.state.selected = none) :
    s.next = some { s with
      state := s.state.select (some (s.last_selected.getD 0)) } := by
  unfold EventList.next
  rw [hsel]

/-- Reduction of `next` when row `i` is selected. -/
theorem next_some (s : EventList) (i : Nat)
    (hsel : s.state.selected = some i) :
    s.next = (sub? s.window.2 s.window.1).bind fun d =>
      (sub? d 1).bind fun threshold =>
      let step := if threshold ≤ i then (i, s.next_window) else (i + 1, s)
      (sub? step.2.nr_items_in_window 1).bind fun nrm1 =>
      some { step.2 with
        state := step.2.state.select (some (min step.1 nrm1)) } := by
  unfold EventList.next
  rw [hsel]

/-- Reduction of `previous` when nothing is selected. -/
theorem previous_none (s : EventList) (hsel : s.state.selected = none) :
    s.previous = some { s with
      state := s.state.select (some (s.last_selected.getD 0)) } := by
  unfold EventList.previous
  rw [hsel]

/-- Reduction of `previous` when row `i` is selected. -/
theorem previous_some (s : EventList) (i : Nat)
    (hsel : s.state.selected = some i) :
    s.previous = if i = 0 then
        s.previous_window.bind fun s1 =>
          some { s1 with state := s1.state.select (some i) }
      else
        some { s with state := s.state.select (some (i - 1)) } := by
  unfold EventList.previous
  rw [hsel]

/-- `next_window` only changes the window, and slides it only within
bounds. -/
theorem next_window_fields (s : EventList) :
    s.next_window.items = s.items ∧
    s.next_window.max_window_len = s.max_window_len ∧
    s.next_window.nr_items_in_window = s.nr_items_in_window ∧
    s.next_window.state = s.state ∧
    (s.next_window.window = s.window ∨
      (s.next_window.window = (s.window.1 + 1, s.window.2 + 1) ∧
        s.window.2 < s.items.length)) := by
  unfold EventList.next_window
  split
  · exact ⟨rfl, rfl, rfl, rfl, Or.inr ⟨rfl, by assumption⟩⟩
  · exact ⟨rfl, rfl, rfl, rfl, Or.inl rfl⟩

/-- A successful `next` leaves `items` and `max_window_len` unchanged and
either keeps the window or slides it down by one within bounds. -/
theorem next_shape (s s1 : EventList) (h : s.next = some s1) :
    s1.items = s.items ∧ s1.max_window_len = s.max_window_len ∧
    (s1.window = s.window ∨
      (s1.window = (s.window.1 + 1, s.window.2 + 1) ∧
        s.window.2 < s.items.length)) := by
  cases hsel : s.state.selected with
  | none =>
    rw [next_none s hsel] at h
    injection h with h
    subst h
    simp
  | some i =>
    rw [next_some s i hsel] at h
    cases hd : sub? s.window.2 s.window.1 with
    | none => rw [hd, Option.none_bind] at h; exact absurd h (by simp)
    | some d =>
      rw [hd, Option.some_bind] at h
      cases hth : sub? d 1 with
      | none => rw [hth, Option.none_bind] at h; exact absurd h (by simp)
      | some threshold =>
        rw [hth, Option.some_bind] at h
        by_cases hc : threshold ≤ i
        · simp only [hc, if_true] at h
          cases hnr : sub? s.next_window.nr_items_in_window 1 with
          | none => rw [hnr, Option.none_bind] at h; exact absurd h (by simp)
          | some nrm1 =>
            rw [hnr, Option.some_bind] at h
            injection h with h
            subst h
            obtain ⟨f1, f2, _f3, _f4, f5⟩ := next_window_fields s
            exact ⟨f1, f2, f5⟩
        · simp only [hc, if_false] at h
          cases hnr : sub? s.nr_items_in_window 1 with
          | none => rw [hnr, Option.none_bind] at h; exact absurd h (by simp)
          | some nrm1 =>
            rw [hnr, Option.some_bind] at h
            injection h with h
            subst h
            exact ⟨rfl, rfl, Or.inl rfl⟩

/-- A successful `previous` leaves `items` and `max_window_len` unchanged and
either keeps the window or slides it up by one within bounds. -/
theorem previous_shape (s s1 : EventList) (h : s.previous = some s1) :
    s1.items = s.items ∧ s1.max_window_len = s.max_window_len ∧
    (s1.window = s.window ∨
      (s1.window = (s.window.1 - 1, s.window.2 - 1) ∧ 0 < s.window.1 ∧
        1 ≤ s.window.2)) := by
  cases hsel : s.state.selected with
  | none =>
    rw [previous_none s hsel] at h
    injection h with h
    subst h
    simp
  | some i =>
    rw [previous_some s i hsel] at h
    by_cases hz : i = 0
    · rw [if_pos hz] at h
      unfold EventList.previous_window at h
      by_cases hw : 0 < s.window.1
      · rw [if_pos hw] at h
        cases hd : sub? s.window.2 1 with
        | none => rw [hd, Option.none_bind, Option.none_bind] at h
                  exact absurd h (by simp)
        | some w2 =>
          rw [hd, Option.some_bind, Option.some_bind] at h
          injection h with h
          subst h
          obtain ⟨hle, hsub⟩ := sub?_eq_some.mp hd
          exact ⟨rfl, rfl, Or.inr ⟨by rw [← hsub], hw, hle⟩⟩
      · rw [if_neg hw, Option.some_bind] at h
        injection h with h
        subst h
        exact ⟨rfl, rfl, Or.inl rfl⟩
    · rw [if_neg hz] at h
      injection h with h
      subst h
      exact ⟨rfl, rfl, Or.inl rfl⟩

/-- A successful `page_up` leaves `items` and `max_window_len` unchanged and
either slides the window up a full page within bounds or pins it to the
head. -/
theorem page_up_shape (s s1 : EventList) (h : s.page_up = some s1) :
    s1.items = s.items ∧ s1.max_window_len = s.max_window_len ∧
    ((s1.window =
        (s.window.1 - s.max_window_len, s.window.2 - s.max_window_len) ∧
        s.max_window_len ≤ s.window.1 ∧ s.max_window_len ≤ s.window.2) ∨
      s1.window = (0, s.max_window_len)) := by
  unfold EventList.page_up at h
  by_cases hc : s.max_window_len ≤ s.window.1
  · rw [if_pos hc] at h
    cases hd : sub? s.window.2 s.max_window_len with
    | none => rw [hd, Option.none_bind] at h; exact absurd h (by simp)
    | some w2 =>
      rw [hd, Option.some_bind] at h
      injection h with h
      subst h
      obtain ⟨hle, hsub⟩ := sub?_eq_some.mp hd
      exact ⟨rfl, rfl, Or.inl ⟨by rw [← hsub], hc, hle⟩⟩
  · rw [if_neg hc] at h
    injection h with h
    subst h
    exact ⟨rfl, rfl, Or.inr (by simp)⟩

/-- `page_down` leaves `items` and `max_window_len` unchanged and either
slides the window down a full page within bounds or pins it to the tail. -/
theorem page_down_shape (s : EventList) :
    s.page_down.items = s.items ∧
    s.page_down.max_window_len = s.max_window_len ∧
    ((s.page_down.window =
        (s.window.1 + s.max_window_len, s.window.2 + s.max_window_len) ∧
        s.window.2 + s.max_window_len ≤ s.items.length) ∨
      s.page_down.window = (s.items.length - s.max_window_len,
        s.items.length - s.max_window_len + s.max_window_len)) := by
  unfold EventList.page_down
  split
  · exact ⟨rfl, rfl, Or.inl ⟨rfl, by assumption⟩⟩
  · exact ⟨rfl, rfl, Or.inr rfl⟩

/-- One vertical navigation step preserves the window invariant when the
viewport is no taller than the item sequence, and never touches `items` or
`max_window_len`. -/
theorem vop_preserves (op : VOp) (s s1 : EventList)
    (hm : s.max_window_len ≤ s.items.length) (hinv : VInv s)
    (h : op.apply s = some s1) :
    VInv s1 ∧ s1.items = s.items ∧ s1.max_window_len = s.max_window_len := by
  obtain ⟨h1, h2, h3⟩ := hinv
  cases op with
  | next =>
    obtain ⟨f1, f2, fc⟩ := next_shape s s1 (by simpa [VOp.apply] using h)
    refine ⟨?_, f1, f2⟩
    unfold VInv
    rcases fc with fc | ⟨fc, hlt⟩ <;> rw [f1, f2, fc] <;> simp <;> omega
  | previous =>
    obtain ⟨f1, f2, fc⟩ := previous_shape s s1 (by simpa [VOp.apply] using h)
    refine ⟨?_, f1, f2⟩
    unfold VInv
    rcases fc with fc | ⟨fc, hlt1, hlt2⟩ <;> rw [f1, f2, fc] <;> simp <;> omega
  | page_up =>
    obtain ⟨f1, f2, fc⟩ := page_up_shape s s1 (by simpa [VOp.apply] using h)
    refine ⟨?_, f1, f2⟩
    unfold VInv
    rcases fc with ⟨fc, hg1, hg2⟩ | fc <;> rw [f1, f2, fc] <;> simp <;> omega
  | page_down =>
    simp only [VOp.apply] at h
    injection h with h
    subst h
    obtain ⟨f1, f2, fc⟩ := page_down_shape s
    refine ⟨?_, f1, f2⟩
    unfold VInv
    rcases fc with ⟨fc, hg⟩ | fc <;> rw [f1, f2, fc] <;> simp <;> omega
  | scroll_to_top =>
    simp only [VOp.apply] at h
    injection h with h
    subst h
    unfold VInv EventList.scroll_to_top
    simp
    omega
  | scroll_to_bottom =>
    simp only [VOp.apply] at h
    injection h with h
    subst h
    unfold VInv EventList.scroll_to_bottom
    simp
    omega

/-- C1 (amended): for every sequence of vertical navigation operations
applied to an `EventList` whose window satisfies the bounds and whose
`max_window_len` does not exceed `items.len()`, the bounds
`0 ≤ window.0 ≤ window.1 ≤ items.len()` and
`window.1 − window.0 ≤ max_window_len` hold after every operation.  (When
`items.len() < max_window_len` the jump and page operations set
`window.1 = max_window_len > items.len()`, refuting the unconditional
claim.) -/
theorem vertical_nav_invariant (ops : List VOp) (s s1 : EventList)
    (hm : s.max_window_len ≤ s.items.length) (hinv : VInv s)
    (h : applyVOps ops s = some s1) : VInv s1 := by
  induction ops generalizing s with
  | nil =>
    unfold applyVOps at h
    injection h with h
    subst h
    exact hinv
  | cons op ops ih =>
    unfold applyVOps at h
    cases hstep : op.apply s with
    | none => rw [hstep, Option.none_bind] at h; exact absurd h (by simp)
    | some t =>
      rw [hstep, Option.some_bind] at h
      obtain ⟨hinv1, hit, hmw⟩ := vop_preserves op s t hm hinv hstep
      exact ih t (by rw [hit, hmw]; exact hm) hinv1 h

/-- C1 witness: from a well-formed 95-item state, jump to top then page down
twice; the window bounds hold at the end. -/
theorem vertical_nav_invariant_witness :
    VInv { el95 with window := (20, 30) } :=
  vertical_nav_invariant
    [VOp.scroll_to_top, VOp.page_down, VOp.page_down] el95
    { el95 with window := (20, 30) } (by decide) (by decide) (by decide)

/-- C1 counterexample: on an empty item sequence with `max_window_len = 10`
(a state satisfying all the claimed bounds), `scroll_to_top` yields
`window = (0, 10)` with `window.1 = 10 > items.len() = 0`. -/
theorem vertical_nav_invariant_counterexample :
    applyVOps [VOp.scroll_to_top] elEmpty10 =
      some { elEmpty10 with window := (0, 10) } ∧
    ¬ (({ elEmpty10 with window := (0, 10) } : EventList).window.2 ≤
        ({ elEmpty10 with window := (0, 10) } : EventList).items.length) := by
  decide

/-! Helper lemmas for the horizontal navigation claims. -/

/-- Horizontal operations never touch `max_width` or `inner_width`. -/
theorem hop_fields (op : HOp) (s : EventList) :
    (op.apply s).max_width = s.max_width ∧
    (op.apply s).inner_width = s.inner_width := by
  cases op <;>
    simp [HOp.apply, EventList.scroll_left, EventList.scroll_right,
      EventList.page_left, EventList.page_right, EventList.scroll_to_start,
      EventList.scroll_to_end]

/-- One horizontal operation keeps the offset within its bound. -/
theorem hop_offset_le (op : HOp) (s : EventList)
    (h : s.horizontal_offset ≤ hbound s) :
    (op.apply s).horizontal_offset ≤ hbound (op.apply s) := by
  obtain ⟨h1, h2⟩ := hop_fields op s
  unfold hbound at h ⊢
  rw [h1, h2]
  cases op <;>
    simp [HOp.apply, EventList.scroll_left, EventList.scroll_right,
      EventList.page_left, EventList.page_right, EventList.scroll_to_start,
      EventList.scroll_to_end] <;>
    omega

/-- Sequences of horizontal operations never touch `max_width` or
`inner_width`. -/
theorem applyHOps_fields (ops : List HOp) (s : EventList) :
    (applyHOps ops s).max_width = s.max_width ∧
    (applyHOps ops s).inner_width = s.inner_width := by
  induction ops generalizing s with
  | nil => exact ⟨rfl, rfl⟩
  | cons op ops ih =>
    obtain ⟨h1, h2⟩ := hop_fields op s
    obtain ⟨g1, g2⟩ := ih (op.apply s)
    exact ⟨by unfold applyHOps; rw [g1, h1],
      by unfold applyHOps; rw [g2, h2]⟩

/-- Any sequence of horizontal operations keeps the offset within its
bound. -/
theorem applyHOps_offset_le (ops : List HOp) (s : EventList)
    (h : s.horizontal_offset ≤ hbound s) :
    (applyHOps ops s).horizontal_offset ≤ hbound (applyHOps ops s) := by
  induction ops generalizing s with
  | nil => exact h
  | cons op ops ih =>
    unfold applyHOps
    exact ih (op.apply s) (hop_offset_le op s h)

/-- Iterating `scroll_right` adds one per step, clamped at the bound. -/
theorem scroll_right_iterate (k : Nat) (s : EventList)
    (h : s.horizontal_offset ≤ hbound s) :
    (applyHOps (List.replicate k HOp.scroll_right) s).horizontal_offset =
      min (s.horizontal_offset + k) (hbound s) := by
  induction k generalizing s with
  | zero =>
    unfold applyHOps
    simp
    omega
  | succ k ih =>
    rw [List.replicate_succ]
    unfold applyHOps
    have hb : hbound (HOp.scroll_right.apply s) = hbound s := by
      obtain ⟨h1, h2⟩ := hop_fields HOp.scroll_right s
      unfold hbound
      rw [h1, h2]
    have hoff : (HOp.scroll_right.apply s).horizontal_offset =
        min (s.horizontal_offset + 1) (hbound s) := by
      simp [HOp.apply, EventList.scroll_right, hbound]
    rw [ih (HOp.scroll_right.apply s) (by rw [hoff, hb]; omega)]
    rw [hoff, hb]
    omega

/-- C6: starting from any state whose horizontal offset is within
`[0, max(0, max_width − inner_width)]`, every sequence of horizontal
navigation operations keeps it within that range (the lower bound is
inherent to `Nat`), and calling `scroll_right` `max_width` times saturates
the offset exactly at the bound rather than overflowing. -/
theorem horizontal_nav_invariant (s : EventList)
    (h : s.horizontal_offset ≤ hbound s) :
    (∀ ops : List HOp,
      (applyHOps ops s).horizontal_offset ≤ hbound (applyHOps ops s)) ∧
    (applyHOps (List.replicate s.max_width HOp.scroll_right)
        s).horizontal_offset = hbound s := by
  refine ⟨fun ops => applyHOps_offset_le ops s h, ?_⟩
  rw [scroll_right_iterate s.max_width s h]
  unfold hbound
  omega

/-- C6 witness: a 5-column-wide content in a 2-column viewport; one scroll
and one page stay within the bound, and five `scroll_right`s pin the offset
at the bound 3. -/
theorem horizontal_nav_invariant_witness :
    (applyHOps [HOp.scroll_right, HOp.page_right] elHoriz).horizontal_offset ≤
      hbound (applyHOps [HOp.scroll_right, HOp.page_right] elHoriz) ∧
    (applyHOps (List.replicate elHoriz.max_width HOp.scroll_right)
        elHoriz).horizontal_offset = hbound elHoriz := by
  have h := horizontal_nav_invariant elHoriz (by decide)
  exact ⟨h.1 [HOp.scroll_right, HOp.page_right], h.2⟩

/-- C3 counterexample: a state that has rendered a 100-column line
(`max_width = 100`) re-renders a window of 3-column lines in a 10-column
area; `max_width` drops to 10, so it is not monotonically non-decreasing
across render passes. -/
theorem render_shrinks_max_width :
    (EventList.render 10 elWide).map EventList.max_width = some 10 ∧
    elWide.max_width = 100 ∧ ¬ ((100 : Nat) ≤ 10) := by
  decide

/-- C3 (amended): after a render pass, `max_width` equals the maximum of the
render area width and the widths of the lines inside the current window — it
is recomputed from scratch each render, independent of the previous
`max_width`, and therefore can shrink when the widest previously rendered
line is no longer inside the window. -/
theorem render_max_width_eq (areaWidth : Nat) (s : EventList)
    (vs : List Nat) (ha : 0 < areaWidth)
    (hv : EventList.windowSlice s.items s.window = some vs) :
    EventList.render areaWidth s = some { s with
      inner_width := areaWidth - 1
      nr_items_in_window := vs.length
      max_width := vs.foldl (fun m w => max m w) areaWidth } := by
  unfold EventList.render
  rw [if_neg (by omega), hv, Option.some_bind]

/-- C3 witness: rendering `elWide` in a 10-column area yields
`max_width = max(10, 3, 3) = 10`. -/
theorem render_max_width_eq_witness :
    EventList.render 10 elWide = some { elWide with
      inner_width := 9
      nr_items_in_window := 2
      max_width := 10 } := by
  have h := render_max_width_eq 10 elWide [3, 3] (by decide) (by decide)
  exact h

/-- C4: with a selected row `i` in a window that is in sync with its rendered
slice (`nr_items_in_window = window.1 − window.0`, window within bounds):
if `i` is the last row and the window's end has not reached the sequence
length, `next` slides the window down by one and keeps the selection at the
last row; if `i` is not the last row, `next` increments the selection by one
(the clamp to the last valid row is inactive); and when the window's end has
reached the true end and `i` is the last row, `next` changes nothing. -/
theorem next_moves_selection (s : EventList) (i : Nat)
    (hsel : s.state.selected = some i)
    (hw : s.window.1 ≤ s.window.2) (hlen : s.window.2 ≤ s.items.length)
    (hnr : s.nr_items_in_window = s.window.2 - s.window.1)
    (hi : i < s.nr_items_in_window) :
    (i + 1 = s.window.2 - s.window.1 → s.window.2 < s.items.length →
      s.next = some { s with
        window := (s.window.1 + 1, s.window.2 + 1)
        state := s.state.select (some i) }) ∧
    (i + 1 < s.window.2 - s.window.1 →
      s.next = some { s with state := s.state.select (some (i + 1)) }) ∧
    (i + 1 = s.window.2 - s.window.1 → s.window.2 = s.items.length →
      s.next = some s) := by
  rw [next_some s i hsel]
  rw [show sub? s.window.2 s.window.1 = some (s.window.2 - s.window.1) from
    sub?_eq_some.mpr ⟨hw, rfl⟩, Option.some_bind]
  rw [show sub? (s.window.2 - s.window.1) 1 =
      some (s.window.2 - s.window.1 - 1) from
    sub?_eq_some.mpr ⟨by omega, rfl⟩, Option.some_bind]
  refine ⟨?_, ?_, ?_⟩
  · intro hlast hroom
    have hc : s.window.2 - s.window.1 - 1 ≤ i := by omega
    have hnw : s.next_window =
        { s with window := (s.window.1 + 1, s.window.2 + 1) } := by
      unfold EventList.next_window
      rw [if_pos hroom]
    have hs1 : sub? s.nr_items_in_window 1 =
        some (s.nr_items_in_window - 1) :=
      sub?_eq_some.mpr ⟨by omega, rfl⟩
    have hmin : min i (s.nr_items_in_window - 1) = i := by omega
    simp only [hc, if_true, hnw, hs1, Option.some_bind, hmin]
  · intro hmid
    have hc : ¬ (s.window.2 - s.window.1 - 1 ≤ i) := by omega
    have hs1 : sub? s.nr_items_in_window 1 =
        some (s.nr_items_in_window - 1) :=
      sub?_eq_some.mpr ⟨by omega, rfl⟩
    have hmin : min (i + 1) (s.nr_items_in_window - 1) = i + 1 := by omega
    simp only [hc, if_false, hs1, Option.some_bind, hmin]
  · intro hlast hend
    have hc : s.window.2 - s.window.1 - 1 ≤ i := by omega
    have hnw : s.next_window = s := by
      unfold EventList.next_window
      rw [if_neg (by omega)]
    have hs1 : sub? s.nr_items_in_window 1 =
        some (s.nr_items_in_window - 1) :=
      sub?_eq_some.mpr ⟨by omega, rfl⟩
    have hmin : min i (s.nr_items_in_window - 1) = i := by omega
    have hst : s.state.select (some i) = s.state := by
      show ({ s.state with selected := some i } : ListState) = s.state
      rw [← hsel]
    simp only [hc, if_true, hnw, hs1, Option.some_bind, hmin, hst]

/-- C4 witness: in `elSel` (selection at the last row 1 of window `(0, 2)`
over 3 items), `next` slides the window to `(1, 3)` and keeps the selection
at row 1. -/
theorem next_moves_selection_witness :
    elSel.next = some { elSel with
      window := (1, 3)
      state := elSel.state.select (some 1) } := by
  have h := (next_moves_selection elSel 1 (by decide) (by decide) (by decide)
    (by decide) (by decide)).1 (by decide) (by decide)
  exact h

/-- C10 counterexample: from the reachable state `el20` (20 items, window
still `(0, 0)`, `max_window_len = 10`), `page_down` takes the sliding branch
and yields window `(10, 10)` of length 0, not `max_window_len`. -/
theorem page_down_keeps_short_window :
    el20.page_down = { el20 with window := (10, 10) } ∧
    ¬ (el20.page_down.window.2 - el20.page_down.window.1 =
        el20.page_down.max_window_len) := by
  decide

/-- C10 (amended): `scroll_to_top` and `scroll_to_bottom` always set the
window length to exactly `max_window_len`; `page_down` and `page_up` do so
whenever the window length was already `max_window_len` (their clamping
branches set it, their sliding branches preserve it), even when
`items.len() < max_window_len`, in which case `window.1` may exceed
`items.len()`; the rendered slice compensates by clamping the window end to
`items.len()` when slicing. -/
theorem window_len_after_page_ops (s : EventList) :
    s.scroll_to_top.window.2 - s.scroll_to_top.window.1 = s.max_window_len ∧
    s.scroll_to_bottom.window.2 - s.scroll_to_bottom.window.1 =
      s.max_window_len ∧
    (s.window.2 - s.window.1 = s.max_window_len → s.window.1 ≤ s.window.2 →
      s.page_down.window.2 - s.page_down.window.1 = s.max_window_len) ∧
    (s.window.2 - s.window.1 = s.max_window_len → s.window.1 ≤ s.window.2 →
      ∃ t, s.page_up = some t ∧
        t.window.2 - t.window.1 = s.max_window_len) ∧
    (∀ (items : List Nat) (w : Nat × Nat) (vs : List Nat),
      EventList.windowSlice items w = some vs →
      vs.length = min w.2 items.length - w.1) := by
  refine ⟨?_, ?_, ?_, ?_, ?_⟩
  · simp [EventList.scroll_to_top]
  · simp [EventList.scroll_to_bottom]
  · intro hlen hord
    obtain ⟨_, _, fc⟩ := page_down_shape s
    rcases fc with ⟨fc, _⟩ | fc <;> rw [fc] <;> simp <;> omega
  · intro hlen hord
    unfold EventList.page_up
    by_cases hc : s.max_window_len ≤ s.window.1
    · rw [if_pos hc]
      rw [show sub? s.window.2 s.max_window_len =
          some (s.window.2 - s.max_window_len) from
        sub?_eq_some.mpr ⟨by omega, rfl⟩, Option.some_bind]
      exact ⟨_, rfl, by simp; omega⟩
    · rw [if_neg hc]
      exact ⟨_, rfl, by simp⟩
  · intro items w vs hv
    unfold EventList.windowSlice at hv
    by_cases hc : w.1 ≤ min w.2 items.length
    · simp only [hc, if_true] at hv
      injection hv with hv
      subst hv
      simp only [List.length_drop, List.length_take]
      omega
    · simp only [hc, if_false] at hv
      exact absurd hv (by simp)

/-- C10 witness: on the 95-item state `el95` (window `(85, 95)` of length
exactly 10), `page_down` keeps the length 10, and the rendered slice of its
window has the clamped length 10. -/
theorem window_len_after_page_ops_witness :
    el95.page_down.window.2 - el95.page_down.window.1 =
      el95.max_window_len ∧
    (List.replicate 10 (0 : Nat)).length =
      min el95.window.2 el95.items.length - el95.window.1 := by
  have h := window_len_after_page_ops el95
  exact ⟨h.2.2.1 (by decide) (by decide),
    h.2.2.2.2 el95.items el95.window (List.replicate 10 0) (by decide)⟩

end Tracexec
